import Mathlib

/-!
Shallow embedding of the VibePlayer music player: the queue/transport
controller state of the App component (`handleNext`, `handlePrev`,
`removeTrack`, `addTrackToPlaylist`, startup restore), the metadata
extractor (`getMetadata`), and the IndexedDB persistence layer (`MusicDB`).
Machine numbers are modelled as `Nat`/`Int`; the asynchronous promises of
the persistence layer are modelled by an explicit resolved/rejected result
type; `Math.random()` draws are passed in as an argument and reduced modulo
the queue length, matching `Math.floor(Math.random() * len)`.
-/

namespace VibePlayer

/-- Repeat modes from `types.ts` (`RepeatMode`). -/
inductive RepeatMode where
  | None
  | One
  | All
deriving DecidableEq, Repr

/-- A track record from `types.ts` (`Track`); the binary payload `blob`
is modelled as its byte list. -/
structure Track where
  id : String
  title : String
  artist : String
  album : Option String
  duration : Nat
  blob : List Nat
  coverUrl : Option String
  addedAt : Nat
  isFavorite : Bool
deriving DecidableEq, Repr

/-- A playlist record from `types.ts` (`Playlist`). -/
structure Playlist where
  id : String
  name : String
  trackIds : List String
  createdAt : Nat
deriving DecidableEq, Repr

/-- The App component state relevant to the queue/transport controller:
`tracks`, `playlists`, `currentQueue`, `currentTrackIndex`, `isPlaying`,
`shuffle`, `repeat`, the playback position `currentTime`, and the
persisted `lastTrackIndex` setting (written by the load effect). -/
structure PlayerState where
  tracks : List Track
  playlists : List Playlist
  currentQueue : List Track
  currentTrackIndex : Option Nat
  isPlaying : Bool
  shuffle : Bool
  repeatMode : RepeatMode
  currentTime : Nat
  savedLastIndex : Option Nat
deriving DecidableEq, Repr

/-- `currentTrack = currentTrackIndex !== null ? currentQueue[currentTrackIndex] : null`;
an out-of-range subscript yields `undefined`, modelled as `none`. -/
def currentTrack (s : PlayerState) : Option Track :=
  match s.currentTrackIndex with
  | Option.some i => s.currentQueue[i]?
  | Option.none => Option.none

/-- The load effect on `[currentTrackIndex, currentQueue]`: when the index
is non-null and addresses an existing queue entry it persists
`lastTrackIndex`; otherwise it does nothing. -/
def persistIndex (s : PlayerState) : PlayerState :=
  match s.currentTrackIndex with
  | Option.some i =>
      if i < s.currentQueue.length then { s with savedLastIndex := Option.some i } else s
  | Option.none => s

/-- The spec's index invariant: a non-null `currentTrackIndex` is a valid
position of `currentQueue`. -/
def indexValid (s : PlayerState) : Bool :=
  match s.currentTrackIndex with
  | Option.some i => decide (i < s.currentQueue.length)
  | Option.none => true

/-- Selecting a track from a list view:
`setCurrentQueue(q); setCurrentTrackIndex(i); setIsPlaying(true)`,
followed by the load effect. -/
def setQueueAndPlay (q : List Track) (i : Nat) (s : PlayerState) : PlayerState :=
  persistIndex { s with currentQueue := q, currentTrackIndex := Option.some i, isPlaying := true }

/-- `handleNext` from the App component. `rand` stands for the
`Math.random()` draw: `Math.floor(Math.random() * len)` is a uniform
integer in `[0, len)`, modelled as `rand % len`. The `RepeatMode.One`
branch only rewinds `audio.currentTime` to `0` and re-invokes `play()`;
the asynchronous rejection handler of that call is not part of the
synchronous state mutation and is not modelled. -/
def handleNext (rand : Nat) (s : PlayerState) : PlayerState :=
  if s.currentQueue.length = 0 then s
  else if s.repeatMode = RepeatMode.One then
    { s with currentTime := 0 }
  else if s.shuffle then
    persistIndex { s with
      currentTrackIndex := Option.some (rand % s.currentQueue.length), isPlaying := true }
  else
    let nextIndex : Nat :=
      match s.currentTrackIndex with
      | Option.some i => i + 1
      | Option.none => 0
    if nextIndex < s.currentQueue.length then
      persistIndex { s with currentTrackIndex := Option.some nextIndex, isPlaying := true }
    else if s.repeatMode = RepeatMode.All then
      persistIndex { s with currentTrackIndex := Option.some 0, isPlaying := true }
    else
      { s with isPlaying := false }

/-- `handlePrev` from the App component:
`(currentTrackIndex - 1 + length) % length` over JS numbers, so the
subtraction is carried out in `Int`. -/
def handlePrev (s : PlayerState) : PlayerState :=
  if s.currentQueue.length = 0 then s
  else
    let prevIndex : Nat :=
      match s.currentTrackIndex with
      | Option.some i =>
          ((((i : Int) - 1 + s.currentQueue.length) % (s.currentQueue.length : Int))).toNat
      | Option.none => 0
    persistIndex { s with currentTrackIndex := Option.some prevIndex, isPlaying := true }

/-- `removeTrack` from the App component: deletes from `tracks`, from
`currentQueue`, and from every playlist's `trackIds`; when the deleted id
is the current track's id it stops playback and nulls the index. The
`currentTrack?.id === id` test reads the pre-update state. -/
def removeTrack (id : String) (s : PlayerState) : PlayerState :=
  let wasCurrent : Bool := (currentTrack s).any (fun t => t.id == id)
  let s1 : PlayerState := { s with
    tracks := s.tracks.filter (fun t => t.id != id),
    currentQueue := s.currentQueue.filter (fun t => t.id != id),
    playlists := s.playlists.map
      (fun p => { p with trackIds := p.trackIds.filter (fun tid => tid != id) }) }
  let s2 : PlayerState :=
    if wasCurrent then { s1 with isPlaying := false, currentTrackIndex := Option.none } else s1
  persistIndex s2

/-- `addTrackToPlaylist` from the App component: no-op when the playlist
is absent or already contains the id, otherwise appends the id. -/
def addTrackToPlaylist (playlistId trackId : String) (s : PlayerState) : PlayerState :=
  match s.playlists.find? (fun p => p.id == playlistId) with
  | Option.none => s
  | Option.some playlist =>
    if playlist.trackIds.contains trackId then s
    else
      let updatedPlaylist : Playlist :=
        { playlist with trackIds := playlist.trackIds ++ [trackId] }
      { s with playlists :=
          s.playlists.map (fun p => if p.id == playlistId then updatedPlaylist else p) }

/-- The startup `init` effect: loads tracks and playlists, sets the queue
to the stored tracks, restores `lastTrackIndex` only when it is a number
addressing an existing stored track, and restores the shuffle/repeat
settings when present. -/
def initRestore (storedTracks : List Track) (storedPlaylists : List Playlist)
    (lastShuffle : Option Bool) (lastRepeat : Option RepeatMode) (lastIndex : Option Int)
    (s : PlayerState) : PlayerState :=
  let restoredIndex : Option Nat :=
    match lastIndex with
    | Option.some i =>
        if 0 ≤ i ∧ i < (storedTracks.length : Int) then Option.some i.toNat
        else s.currentTrackIndex
    | Option.none => s.currentTrackIndex
  persistIndex { s with
    tracks := storedTracks,
    playlists := storedPlaylists,
    currentQueue := storedTracks,
    currentTrackIndex := restoredIndex,
    shuffle := lastShuffle.getD s.shuffle,
    repeatMode := lastRepeat.getD s.repeatMode }

/-- `k`-fold iteration of `handleNext` (the draw is irrelevant with
shuffle off, so `0` is passed). -/
def nextIter : Nat → PlayerState → PlayerState
  | 0, s => s
  | Nat.succ k, s => nextIter k (handleNext 0 s)

/-- The initial component state: empty library and queue, null index,
paused, shuffle off, repeat `None`. -/
def initialState : PlayerState :=
  { tracks := [], playlists := [], currentQueue := [], currentTrackIndex := Option.none,
    isPlaying := false, shuffle := false, repeatMode := RepeatMode.None,
    currentTime := 0, savedLastIndex := Option.none }

/-- `file.name.replace(/\.[^/.]+$/, "")`: strips a trailing dot followed
by one or more characters none of which is a dot or a slash. -/
def stripExt (s : String) : String :=
  let rev : List Char := s.data.reverse
  let ext : List Char := rev.takeWhile (fun c => c != '.' && c != '/')
  match rev.drop ext.length with
  | '.' :: rest => if ext.isEmpty then s else String.mk rest.reverse
  | _ => s

/-- JavaScript `v || d` on a possibly absent string: the default is taken
when the field is absent or the empty string (both falsy). -/
def jsOrElse (v : Option String) (d : String) : String :=
  match v with
  | Option.some t => if t = "" then d else t
  | Option.none => d

/-- The base64 alphabet used by `window.btoa`. -/
def base64Chars : List Char :=
  "ABCDEFGHIJKLMNOPQRSTUVWXYZabcdefghijklmnopqrstuvwxyz0123456789+/".data

/-- One base64 digit. -/
def base64Char (n : Nat) : Char := base64Chars.getD n 'A'

/-- `window.btoa` over a byte list (the bytes come from a `Uint8Array`,
so each is below 256). -/
def btoa : List Nat → List Char
  | [] => []
  | [a] => [base64Char (a / 4), base64Char (a % 4 * 16), '=', '=']
  | [a, b] => [base64Char (a / 4), base64Char (a % 4 * 16 + b / 16), base64Char (b % 16 * 4), '=']
  | a :: b :: c :: rest =>
    base64Char (a / 4) :: base64Char (a % 4 * 16 + b / 16) ::
      base64Char (b % 16 * 4 + c / 64) :: base64Char (c % 64) :: btoa rest

/-- A tag picture as delivered by the tag reader: raw bytes plus the
declared image format. -/
structure TagPicture where
  data : List Nat
  format : String
deriving DecidableEq, Repr

/-- The tag fields `jsmediatags` may deliver on success; every field can
be absent. -/
structure TagFields where
  title : Option String
  artist : Option String
  album : Option String
  picture : Option TagPicture
deriving DecidableEq, Repr

/-- How the tag-reading attempt for one file can end: the library is not
loaded (`window.jsmediatags` absent), `onError` fires, or `onSuccess`
fires with the given tag fields. -/
inductive TagOutcome where
  | unavailable
  | failure
  | success (tags : TagFields)
deriving DecidableEq, Repr

/-- The tuple `getMetadata` resolves with (a `Partial<Track>`): `album`
and `coverUrl` are `none` when the resolved object omits them. -/
structure TrackMeta where
  title : String
  artist : String
  album : Option String
  coverUrl : Option String
deriving DecidableEq, Repr

/-- `getMetadata` from the App component's import handler, as the outcome
of the promise it returns: `Except.ok` models `resolve`, `Except.error`
would model `reject`. When the parser is unavailable or errors it
resolves the filename/`Desconhecido` fallback; on success each field
falls back individually (`||`), the album default being `VibePlayer`,
and the cover is a base64 data URL when a picture is present, else the
empty string. -/
def getMetadata (fileName : String) (outcome : TagOutcome) : Except String TrackMeta :=
  match outcome with
  | TagOutcome.unavailable =>
      Except.ok { title := stripExt fileName, artist := "Desconhecido",
                  album := Option.none, coverUrl := Option.none }
  | TagOutcome.failure =>
      Except.ok { title := stripExt fileName, artist := "Desconhecido",
                  album := Option.none, coverUrl := Option.none }
  | TagOutcome.success tags =>
      let coverUrl : String :=
        match tags.picture with
        | Option.some pic =>
            "data:" ++ pic.format ++ ";base64," ++
              String.mk (btoa (pic.data.map (fun b => b % 256)))
        | Option.none => ""
      Except.ok { title := jsOrElse tags.title (stripExt fileName),
                  artist := jsOrElse tags.artist "Desconhecido",
                  album := Option.some (jsOrElse tags.album "VibePlayer"),
                  coverUrl := Option.some coverUrl }

/-- The outcome of an asynchronous `MusicDB` operation: its promise
either resolves with a value or rejects with a message. -/
inductive PromiseResult (α : Type) where
  | resolved (value : α)
  | rejected (msg : String)
deriving DecidableEq, Repr

/-- Whether a promise outcome is a rejection. -/
def PromiseResult.isRejected {α : Type} : PromiseResult α → Bool
  | PromiseResult.resolved _ => false
  | PromiseResult.rejected _ => true

namespace MusicDB

/-- `MusicDB.init`: the promise outcome as a function of whether the
`indexedDB.open` request errors. -/
def init (requestFails : Bool) : PromiseResult Unit :=
  if requestFails then PromiseResult.rejected "Failed to open IndexedDB"
  else PromiseResult.resolved ()

/-- `MusicDB.saveTrack`: outcome as a function of whether the `put`
request errors. -/
def saveTrack (requestFails : Bool) : PromiseResult Unit :=
  if requestFails then PromiseResult.rejected "Error saving track"
  else PromiseResult.resolved ()

/-- `MusicDB.getAllTracks`: outcome as a function of whether the `getAll`
request errors, given the stored records. -/
def getAllTracks (requestFails : Bool) (stored : List Track) : PromiseResult (List Track) :=
  if requestFails then PromiseResult.rejected "Error fetching tracks"
  else PromiseResult.resolved stored

/-- `MusicDB.deleteTrack`: outcome as a function of whether the `delete`
request errors. -/
def deleteTrack (requestFails : Bool) : PromiseResult Unit :=
  if requestFails then PromiseResult.rejected "Error deleting track"
  else PromiseResult.resolved ()

/-- `MusicDB.savePlaylist`: outcome as a function of whether the `put`
request errors. -/
def savePlaylist (requestFails : Bool) : PromiseResult Unit :=
  if requestFails then PromiseResult.rejected "Error saving playlist"
  else PromiseResult.resolved ()

/-- `MusicDB.getPlaylists`: outcome as a function of whether the `getAll`
request errors, given the stored records. -/
def getPlaylists (requestFails : Bool) (stored : List Playlist) : PromiseResult (List Playlist) :=
  if requestFails then PromiseResult.rejected "Error fetching playlists"
  else PromiseResult.resolved stored

/-- `MusicDB.deletePlaylist`: outcome as a function of whether the
`delete` request errors. -/
def deletePlaylist (requestFails : Bool) : PromiseResult Unit :=
  if requestFails then PromiseResult.rejected "Error deleting playlist"
  else PromiseResult.resolved ()

/-- `MusicDB.saveSetting`: outcome as a function of whether the `put`
request errors. -/
def saveSetting (requestFails : Bool) : PromiseResult Unit :=
  if requestFails then PromiseResult.rejected "Error saving setting"
  else PromiseResult.resolved ()

/-- `MusicDB.getSetting`: `onsuccess` resolves the stored value (`none`
when the key is absent); `onerror` resolves `null` — it never rejects. -/
def getSetting (α : Type) (requestFails : Bool) (stored : Option α) : PromiseResult (Option α) :=
  if requestFails then PromiseResult.resolved Option.none
  else PromiseResult.resolved stored

end MusicDB

/-- A sample track. -/
def trackA : Track :=
  { id := "a", title := "A", artist := "X", album := Option.none, duration := 10,
    blob := [], coverUrl := Option.none, addedAt := 0, isFavorite := false }

/-- A sample track. -/
def trackB : Track :=
  { id := "b", title := "B", artist := "X", album := Option.none, duration := 10,
    blob := [], coverUrl := Option.none, addedAt := 0, isFavorite := false }

/-- A sample track. -/
def trackC : Track :=
  { id := "c", title := "C", artist := "X", album := Option.none, duration := 10,
    blob := [], coverUrl := Option.none, addedAt := 0, isFavorite := false }

/-- A sample playlist referencing `trackA`. -/
def pl1 : Playlist := { id := "p1", name := "P", trackIds := ["a"], createdAt := 0 }

/-- A sample running state: three-track library loaded as the queue,
first track active and playing, one playlist present. -/
def libState : PlayerState :=
  { initialState with
    tracks := [trackA, trackB, trackC],
    playlists := [pl1],
    currentQueue := [trackA, trackB, trackC],
    currentTrackIndex := Option.some 0,
    isPlaying := true }

/-- A sample state sitting on the last (and only) track of the queue. -/
def endState : PlayerState :=
  { initialState with
    tracks := [trackA],
    currentQueue := [trackA],
    currentTrackIndex := Option.some 0,
    isPlaying := true }

/- ------------------------------------------------------------------ -/
/- Helper lemmas -/
/- ------------------------------------------------------------------ -/

theorem persistIndex_tracks (s : PlayerState) : (persistIndex s).tracks = s.tracks := by
  unfold persistIndex
  split
  · split <;> rfl
  · rfl

theorem persistIndex_playlists (s : PlayerState) :
    (persistIndex s).playlists = s.playlists := by
  unfold persistIndex
  split
  · split <;> rfl
  · rfl

theorem persistIndex_currentQueue (s : PlayerState) :
    (persistIndex s).currentQueue = s.currentQueue := by
  unfold persistIndex
  split
  · split <;> rfl
  · rfl

theorem persistIndex_currentTrackIndex (s : PlayerState) :
    (persistIndex s).currentTrackIndex = s.currentTrackIndex := by
  unfold persistIndex
  split
  · split <;> rfl
  · rfl

theorem persistIndex_isPlaying (s : PlayerState) :
    (persistIndex s).isPlaying = s.isPlaying := by
  unfold persistIndex
  split
  · split <;> rfl
  · rfl

theorem persistIndex_shuffle (s : PlayerState) : (persistIndex s).shuffle = s.shuffle := by
  unfold persistIndex
  split
  · split <;> rfl
  · rfl

theorem persistIndex_repeatMode (s : PlayerState) :
    (persistIndex s).repeatMode = s.repeatMode := by
  unfold persistIndex
  split
  · split <;> rfl
  · rfl

theorem length_ne_zero_of_ne_nil {l : List Track} (h : l ≠ []) : l.length ≠ 0 := by
  simpa using h

theorem removeTrack_tracks (id : String) (s : PlayerState) :
    (removeTrack id s).tracks = s.tracks.filter (fun t => t.id != id) := by
  unfold removeTrack
  by_cases h : (currentTrack s).any (fun t => t.id == id) <;>
    simp [h, persistIndex_tracks]

theorem removeTrack_playlists (id : String) (s : PlayerState) :
    (removeTrack id s).playlists =
      s.playlists.map (fun p => { p with trackIds := p.trackIds.filter (fun tid => tid != id) }) := by
  unfold removeTrack
  by_cases h : (currentTrack s).any (fun t => t.id == id) <;>
    simp [h, persistIndex_playlists]

theorem removeTrack_currentQueue (id : String) (s : PlayerState) :
    (removeTrack id s).currentQueue = s.currentQueue.filter (fun t => t.id != id) := by
  unfold removeTrack
  by_cases h : (currentTrack s).any (fun t => t.id == id) <;>
    simp [h, persistIndex_currentQueue]

theorem removeTrack_of_current (id : String) (s : PlayerState)
    (h : (currentTrack s).any (fun t => t.id == id) = true) :
    (removeTrack id s).isPlaying = false ∧
      (removeTrack id s).currentTrackIndex = Option.none := by
  unfold removeTrack
  simp [h, persistIndex_isPlaying, persistIndex_currentTrackIndex]

theorem removeTrack_of_not_current (id : String) (s : PlayerState)
    (h : (currentTrack s).any (fun t => t.id == id) = false) :
    (removeTrack id s).currentTrackIndex = s.currentTrackIndex := by
  unfold removeTrack
  simp [h, persistIndex_currentTrackIndex]

theorem indexValid_some (s : PlayerState) (i : Nat)
    (h : s.currentTrackIndex = Option.some i) :
    indexValid s = decide (i < s.currentQueue.length) := by
  unfold indexValid
  rw [h]

theorem indexValid_none (s : PlayerState) (h : s.currentTrackIndex = Option.none) :
    indexValid s = true := by
  unfold indexValid
  rw [h]

theorem indexValid_intro (s : PlayerState)
    (h : ∀ i, s.currentTrackIndex = Option.some i → i < s.currentQueue.length) :
    indexValid s = true := by
  cases heq : s.currentTrackIndex with
  | some i =>
    rw [indexValid_some s i heq]
    simpa using h i heq
  | none => exact indexValid_none s heq

theorem indexValid_elim (s : PlayerState) (hv : indexValid s = true) (i : Nat)
    (h : s.currentTrackIndex = Option.some i) : i < s.currentQueue.length := by
  rw [indexValid_some s i h] at hv
  simpa using hv

theorem length_filter_ne (q : List Track) (id : String)
    (hnd : (q.map Track.id).Nodup) :
    q.length - 1 ≤ (q.filter (fun t => t.id != id)).length := by
  induction q with
  | nil => simp
  | cons t q ih =>
    simp only [List.map_cons, List.nodup_cons] at hnd
    rcases hnd with ⟨hni, hnd⟩
    by_cases hid : t.id = id
    · have hq : q.filter (fun x => x.id != id) = q := by
        apply List.filter_eq_self.mpr
        intro x hx
        simp only [bne_iff_ne]
        intro hxe
        exact hni (List.mem_map.mpr ⟨x, hx, by rw [hxe, hid]⟩)
      have hfalse : ((t.id != id) = true) = False := by simp [hid]
      simp only [List.filter_cons, hfalse, if_false, hq, List.length_cons]
      omega
    · have htrue : (t.id != id) = true := by simpa using hid
      simp only [List.filter_cons, htrue, if_true, List.length_cons]
      have := ih hnd
      omega

/- ------------------------------------------------------------------ -/
/- Claim theorems -/
/- ------------------------------------------------------------------ -/

/-- Claim C10: when the queue is empty, `next()` and `prev()` leave the
whole state — index, playing flag, shuffle flag, repeat mode, playback
position and persisted index — unchanged, for every shuffle/repeat
combination. -/
theorem emptyQueue_next_prev_noop (s : PlayerState) (r : Nat)
    (hq : s.currentQueue = []) : handleNext r s = s ∧ handlePrev s = s := by
  constructor <;> simp [handleNext, handlePrev, hq]

/-- Witness for C10 at the initial state. -/
theorem emptyQueue_next_prev_noop_witness :
    handleNext 0 initialState = initialState ∧ handlePrev initialState = initialState :=
  emptyQueue_next_prev_noop initialState 0 rfl

/-- Claim C3: with a non-empty queue, `repeat = None` and `shuffle`
off, `next()` at the last index stops playback and leaves the index
unchanged. -/
theorem handleNext_atEnd_stops (s : PlayerState) (r : Nat)
    (hq : s.currentQueue ≠ [])
    (hrep : s.repeatMode = RepeatMode.None)
    (hsh : s.shuffle = false)
    (hidx : s.currentTrackIndex = Option.some (s.currentQueue.length - 1)) :
    (handleNext r s).isPlaying = false ∧
      (handleNext r s).currentTrackIndex = s.currentTrackIndex := by
  have hlen : s.currentQueue.length ≠ 0 := length_ne_zero_of_ne_nil hq
  have hov : ¬ (s.currentQueue.length - 1 + 1 < s.currentQueue.length) := by omega
  simp [handleNext, hlen, hrep, hsh, hidx, hov]

/-- Witness for C3 on a one-track queue at index 0. -/
theorem handleNext_atEnd_stops_witness :
    (handleNext 0 endState).isPlaying = false ∧
      (handleNext 0 endState).currentTrackIndex = endState.currentTrackIndex :=
  handleNext_atEnd_stops endState 0 (by decide) (by decide) (by decide) (by decide)

/-- Claim C5: with a non-empty queue and `repeat = One`, `next()` leaves
the index unchanged and the play state playing, regardless of shuffle;
the only change is resetting the playback position to 0. -/
theorem handleNext_repeatOne_frame (s : PlayerState) (r : Nat)
    (hq : s.currentQueue ≠ [])
    (hrep : s.repeatMode = RepeatMode.One)
    (hplay : s.isPlaying = true) :
    (handleNext r s).currentTrackIndex = s.currentTrackIndex ∧
      (handleNext r s).isPlaying = true ∧
      handleNext r s = { s with currentTime := 0 } := by
  have hlen : s.currentQueue.length ≠ 0 := length_ne_zero_of_ne_nil hq
  have hres : handleNext r s = { s with currentTime := 0 } := by
    simp [handleNext, hlen, hrep]
  exact ⟨by rw [hres], by rw [hres]; exact hplay, hres⟩

/-- Witness for C5 with shuffle on and a three-track queue. -/
theorem handleNext_repeatOne_frame_witness :
    (handleNext 2 { libState with repeatMode := RepeatMode.One, shuffle := true }).currentTrackIndex
        = ({ libState with repeatMode := RepeatMode.One, shuffle := true } :
            PlayerState).currentTrackIndex ∧
      (handleNext 2 { libState with repeatMode := RepeatMode.One, shuffle := true }).isPlaying
        = true ∧
      handleNext 2 { libState with repeatMode := RepeatMode.One, shuffle := true }
        = { { libState with repeatMode := RepeatMode.One, shuffle := true } with
            currentTime := 0 } :=
  handleNext_repeatOne_frame { libState with repeatMode := RepeatMode.One, shuffle := true } 2
    (by decide) (by decide) (by decide)

/-- Claim C6: with a valid current index, `prev()` sets the index to
`(index - 1 + length) % length` (over the integers) and resumes playing,
for every repeat mode and shuffle setting; at index 0 it wraps to
`length - 1`. -/
theorem handlePrev_wraps (s : PlayerState) (i : Nat)
    (hidx : s.currentTrackIndex = Option.some i)
    (hi : i < s.currentQueue.length) :
    (handlePrev s).currentTrackIndex =
        Option.some ((((i : Int) - 1 + s.currentQueue.length) %
          (s.currentQueue.length : Int)).toNat) ∧
      (handlePrev s).isPlaying = true ∧
      (i = 0 →
        (handlePrev s).currentTrackIndex = Option.some (s.currentQueue.length - 1)) := by
  have hlen : s.currentQueue.length ≠ 0 := by omega
  have hres : handlePrev s =
      persistIndex { s with
        currentTrackIndex :=
          Option.some ((((i : Int) - 1 + s.currentQueue.length) %
            (s.currentQueue.length : Int)).toNat),
        isPlaying := true } := by
    simp [handlePrev, hlen, hidx]
  refine ⟨?_, ?_, ?_⟩
  · rw [hres, persistIndex_currentTrackIndex]
  · rw [hres, persistIndex_isPlaying]
  · intro h0
    subst h0
    rw [hres, persistIndex_currentTrackIndex]
    have hnn : (0 : Int) ≤ (s.currentQueue.length : Int) - 1 := by omega
    have hlt : (s.currentQueue.length : Int) - 1 < (s.currentQueue.length : Int) := by omega
    rw [show (((0 : Nat) : Int) - 1 + s.currentQueue.length) = (s.currentQueue.length : Int) - 1
          by push_cast; ring,
        Int.emod_eq_of_lt hnn hlt]
    have h2 : ((s.currentQueue.length : Int) - 1).toNat = s.currentQueue.length - 1 := by
      omega
    rw [h2]

/-- Witness for C6: `prev()` at index 0 of a three-track queue wraps to
index 2 and resumes playing. -/
theorem handlePrev_wraps_witness :
    (handlePrev libState).currentTrackIndex
        = Option.some (libState.currentQueue.length - 1) ∧
      (handlePrev libState).isPlaying = true :=
  ⟨(handlePrev_wraps libState 0 (by decide) (by decide)).2.2 rfl,
   (handlePrev_wraps libState 0 (by decide) (by decide)).2.1⟩

/-- Claim C1: deleting a track identifier removes it from the track
store and from every playlist's sequence, and — when it is the active
queue entry — stops playback and clears the index. -/
theorem removeTrack_cascades (s : PlayerState) (id : String)
    (hmem : id ∈ s.tracks.map Track.id) :
    id ∉ (removeTrack id s).tracks.map Track.id ∧
      (∀ p ∈ (removeTrack id s).playlists, id ∉ p.trackIds) ∧
      ((currentTrack s).any (fun t => t.id == id) = true →
        (removeTrack id s).isPlaying = false ∧
          (removeTrack id s).currentTrackIndex = Option.none) := by
  refine ⟨?_, ?_, removeTrack_of_current id s⟩
  · rw [removeTrack_tracks]
    simp [List.mem_map, List.mem_filter]
  · intro p hp
    rw [removeTrack_playlists] at hp
    rcases List.mem_map.mp hp with ⟨q, _, rfl⟩
    simp [List.mem_filter]

/-- Witness for C1: deleting the active track `"a"` from the sample
state removes it everywhere and stops playback. -/
theorem removeTrack_cascades_witness :
    "a" ∉ (removeTrack "a" libState).tracks.map Track.id ∧
      (removeTrack "a" libState).isPlaying = false ∧
      (removeTrack "a" libState).currentTrackIndex = Option.none :=
  ⟨(removeTrack_cascades libState "a" (by decide)).1,
   ((removeTrack_cascades libState "a" (by decide)).2.2 (by decide)).1,
   ((removeTrack_cascades libState "a" (by decide)).2.2 (by decide)).2⟩

/-- Claim C7: adding an already-present track identifier to a playlist
is a no-op, so starting from playlists whose sequences hold each
identifier at most once, any insertion keeps every identifier at most
once per playlist. -/
theorem addTrackToPlaylist_idempotent (s : PlayerState) (pid tid : String) :
    (∀ p, s.playlists.find? (fun q => q.id == pid) = Option.some p →
      tid ∈ p.trackIds → addTrackToPlaylist pid tid s = s) ∧
    ((∀ p ∈ s.playlists, ∀ t, p.trackIds.count t ≤ 1) →
      ∀ p ∈ (addTrackToPlaylist pid tid s).playlists, ∀ t, p.trackIds.count t ≤ 1) := by
  constructor
  · intro p hf hmem
    have hc : p.trackIds.contains tid = true := by simpa using hmem
    unfold addTrackToPlaylist
    rw [hf]
    dsimp only
    rw [if_pos hc]
  · intro hinv p hp t
    unfold addTrackToPlaylist at hp
    cases hf : s.playlists.find? (fun q => q.id == pid) with
    | none =>
      rw [hf] at hp
      exact hinv p hp t
    | some p0 =>
      rw [hf] at hp
      dsimp only at hp
      by_cases hc : p0.trackIds.contains tid = true
      · rw [if_pos hc] at hp
        exact hinv p hp t
      · rw [if_neg hc] at hp
        simp only [List.mem_map] at hp
        rcases hp with ⟨q, hq, rfl⟩
        by_cases hqid : (q.id == pid) = true
        · rw [if_pos hqid]
          have hcount : List.count t (p0.trackIds ++ [tid]) =
              List.count t p0.trackIds + List.count t [tid] := List.count_append t _ _
          simp only [hcount]
          have hp0 : p0 ∈ s.playlists := List.mem_of_find?_eq_some hf
          have hnm : tid ∉ p0.trackIds := by
            intro hm
            exact hc (by simpa using hm)
          by_cases ht : t = tid
          · subst ht
            rw [List.count_eq_zero.mpr hnm]
            simp
          · have h1 : List.count t [tid] = 0 := by simp [ht]
            rw [h1]
            have := hinv p0 hp0 t
            omega
        · rw [if_neg hqid]
          exact hinv q hq t

/-- Witness for C7: re-adding `"a"` to the playlist that already holds
it leaves the state unchanged, and the at-most-once property holds
afterwards. -/
theorem addTrackToPlaylist_idempotent_witness :
    addTrackToPlaylist "p1" "a" libState = libState ∧
      (∀ p ∈ (addTrackToPlaylist "p1" "a" libState).playlists, ∀ t, p.trackIds.count t ≤ 1) :=
  ⟨(addTrackToPlaylist_idempotent libState "p1" "a").1 pl1 (by decide) (by decide),
   (addTrackToPlaylist_idempotent libState "p1" "a").2 (by
      intro p hp t
      have hpl : libState.playlists = [pl1] := rfl
      rw [hpl] at hp
      rcases List.mem_singleton.mp hp with rfl
      calc List.count t pl1.trackIds ≤ pl1.trackIds.length := List.count_le_length t pl1.trackIds
        _ = 1 := rfl)⟩

/-- Claim C8: `getMetadata` never rejects, and on parser unavailability
or parse failure it resolves the fallback tuple: filename without
extension as the title, the fixed `Desconhecido` sentinel as the artist,
album and cover absent. -/
theorem getMetadata_never_rejects (fileName : String) (outcome : TagOutcome) :
    (∃ m, getMetadata fileName outcome = Except.ok m) ∧
      ((outcome = TagOutcome.unavailable ∨ outcome = TagOutcome.failure) →
        getMetadata fileName outcome =
          Except.ok { title := stripExt fileName, artist := "Desconhecido",
                      album := Option.none, coverUrl := Option.none }) := by
  constructor
  · cases outcome <;> exact ⟨_, rfl⟩
  · rintro (rfl | rfl) <;> rfl

/-- Witness for C8 on the file `song.mp3` with a failing parser. -/
theorem getMetadata_never_rejects_witness :
    getMetadata "song.mp3" TagOutcome.failure =
      Except.ok { title := "song", artist := "Desconhecido",
                  album := Option.none, coverUrl := Option.none } := by
  have h := (getMetadata_never_rejects "song.mp3" TagOutcome.failure).2 (Or.inr rfl)
  have he : stripExt "song.mp3" = "song" := by decide
  rw [he] at h
  exact h

/-- Claim C9 counterexample: with an erroring storage request,
`MusicDB.getSetting` resolves `null` instead of rejecting, refuting the
claim that every persistent-store operation rejects on storage failure. -/
theorem getSetting_resolves_on_error :
    MusicDB.getSetting Nat true (Option.some 7) = PromiseResult.resolved Option.none ∧
      (MusicDB.getSetting Nat true (Option.some 7)).isRejected = false := by
  constructor <;> rfl

/-- Claim C9 (amended): when the underlying storage request errors,
`init`, `saveTrack`, `getAllTracks`, `deleteTrack`, `savePlaylist`,
`getPlaylists`, `deletePlaylist` and `saveSetting` reject their promise,
while `getSetting` instead resolves with `null`. -/
theorem db_error_propagation :
    (MusicDB.init true).isRejected = true ∧
      (MusicDB.saveTrack true).isRejected = true ∧
      (∀ ts : List Track, (MusicDB.getAllTracks true ts).isRejected = true) ∧
      (MusicDB.deleteTrack true).isRejected = true ∧
      (MusicDB.savePlaylist true).isRejected = true ∧
      (∀ ps : List Playlist, (MusicDB.getPlaylists true ps).isRejected = true) ∧
      (MusicDB.deletePlaylist true).isRejected = true ∧
      (MusicDB.saveSetting true).isRejected = true ∧
      (∀ (α : Type) (st : Option α),
        MusicDB.getSetting α true st = PromiseResult.resolved Option.none) :=
  ⟨rfl, rfl, fun _ => rfl, rfl, rfl, fun _ => rfl, rfl, rfl, fun _ _ => rfl⟩

/-- Claim C2 counterexample: from a reachable state (queue `[A, B]`,
index 1, obtained by `setQueueAndPlay`), deleting the non-active track
`"a"` shrinks the queue to length 1 but leaves the index at 1, violating
the claimed invariant that a non-null index is always in range. -/
theorem transport_index_invariant_counterexample :
    indexValid (setQueueAndPlay [trackA, trackB] 1 initialState) = true ∧
      indexValid (removeTrack "a" (setQueueAndPlay [trackA, trackB] 1 initialState)) = false := by
  constructor <;> rfl

/-- Claim C2 (amended): a non-null index stays a valid queue position
under setting the queue with a matching in-range index, `next`, `prev`,
and startup restore from the null-index mount state; track deletion also
preserves it except when the deleted identifier belongs to a non-active
entry of a duplicate-free queue while the current index is the last
position (there the index is left one past the new end). -/
theorem transport_index_invariant (s : PlayerState) (hs : indexValid s = true) :
    (∀ q i, i < q.length → indexValid (setQueueAndPlay q i s) = true) ∧
      (∀ r, indexValid (handleNext r s) = true) ∧
      indexValid (handlePrev s) = true ∧
      (∀ ts ps lsh lrep lidx, s.currentTrackIndex = Option.none →
        indexValid (initRestore ts ps lsh lrep lidx s) = true) ∧
      (∀ id, (s.currentQueue.map Track.id).Nodup →
        ((currentTrack s).any (fun t => t.id == id) = true ∨
          id ∉ s.currentQueue.map Track.id ∨
          s.currentTrackIndex ≠ Option.some (s.currentQueue.length - 1)) →
        indexValid (removeTrack id s) = true) := by
  refine ⟨?_, ?_, ?_, ?_, ?_⟩
  · -- setQueueAndPlay
    intro q i hi
    apply indexValid_intro
    intro j hj
    unfold setQueueAndPlay at hj ⊢
    rw [persistIndex_currentTrackIndex] at hj
    rw [persistIndex_currentQueue]
    dsimp only at hj ⊢
    cases hj
    exact hi
  · -- handleNext
    intro r
    by_cases h0 : s.currentQueue.length = 0
    · rw [show handleNext r s = s from by simp [handleNext, h0]]
      exact hs
    by_cases h1 : s.repeatMode = RepeatMode.One
    · rw [show handleNext r s = { s with currentTime := 0 } from by simp [handleNext, h0, h1]]
      exact hs
    by_cases h2 : s.shuffle
    · have hres : handleNext r s =
          persistIndex { s with
            currentTrackIndex := Option.some (r % s.currentQueue.length),
            isPlaying := true } := by
        simp [handleNext, h0, h1, h2]
      apply indexValid_intro
      intro j hj
      rw [hres, persistIndex_currentTrackIndex] at hj
      rw [hres, persistIndex_currentQueue]
      dsimp only at hj ⊢
      cases hj
      exact Nat.mod_lt r (by omega)
    · cases hidx : s.currentTrackIndex with
      | some i =>
        by_cases h3 : i + 1 < s.currentQueue.length
        · have hres : handleNext r s =
              persistIndex { s with
                currentTrackIndex := Option.some (i + 1), isPlaying := true } := by
            simp [handleNext, h0, h1, h2, hidx, h3]
          apply indexValid_intro
          intro j hj
          rw [hres, persistIndex_currentTrackIndex] at hj
          rw [hres, persistIndex_currentQueue]
          dsimp only at hj ⊢
          cases hj
          exact h3
        · by_cases h4 : s.repeatMode = RepeatMode.All
          · have hres : handleNext r s =
                persistIndex { s with
                  currentTrackIndex := Option.some 0, isPlaying := true } := by
              simp [handleNext, h0, h1, h2, hidx, h3, h4]
            apply indexValid_intro
            intro j hj
            rw [hres, persistIndex_currentTrackIndex] at hj
            rw [hres, persistIndex_currentQueue]
            dsimp only at hj ⊢
            cases hj
            omega
          · rw [show handleNext r s = { s with isPlaying := false } from by
              simp [handleNext, h0, h1, h2, hidx, h3, h4]]
            exact hs
      | none =>
        have hres : handleNext r s =
            persistIndex { s with
              currentTrackIndex := Option.some 0, isPlaying := true } := by
          simp [handleNext, h0, h1, h2, hidx]
        apply indexValid_intro
        intro j hj
        rw [hres, persistIndex_currentTrackIndex] at hj
        rw [hres, persistIndex_currentQueue]
        dsimp only at hj ⊢
        cases hj
        omega
  · -- handlePrev
    by_cases h0 : s.currentQueue.length = 0
    · rw [show handlePrev s = s from by simp [handlePrev, h0]]
      exact hs
    · cases hidx : s.currentTrackIndex with
      | some i =>
        have hres : handlePrev s =
            persistIndex { s with
              currentTrackIndex :=
                Option.some ((((i : Int) - 1 + s.currentQueue.length) %
                  (s.currentQueue.length : Int)).toNat),
              isPlaying := true } := by
          simp [handlePrev, h0, hidx]
        apply indexValid_intro
        intro j hj
        rw [hres, persistIndex_currentTrackIndex] at hj
        rw [hres, persistIndex_currentQueue]
        dsimp only at hj ⊢
        cases hj
        have hpos : (0 : Int) < (s.currentQueue.length : Int) := by omega
        have hlt := Int.emod_lt_of_pos ((i : Int) - 1 + s.currentQueue.length) hpos
        have hnn := Int.emod_nonneg ((i : Int) - 1 + s.currentQueue.length)
          (by omega : (s.currentQueue.length : Int) ≠ 0)
        omega
      | none =>
        have hres : handlePrev s =
            persistIndex { s with
              currentTrackIndex := Option.some 0, isPlaying := true } := by
          simp [handlePrev, h0, hidx]
        apply indexValid_intro
        intro j hj
        rw [hres, persistIndex_currentTrackIndex] at hj
        rw [hres, persistIndex_currentQueue]
        dsimp only at hj ⊢
        cases hj
        omega
  · -- initRestore
    intro ts ps lsh lrep lidx hnone
    apply indexValid_intro
    intro j hj
    unfold initRestore at hj ⊢
    rw [persistIndex_currentTrackIndex] at hj
    rw [persistIndex_currentQueue]
    dsimp only at hj ⊢
    cases lidx with
    | none =>
      dsimp only at hj
      rw [hnone] at hj
      cases hj
    | some i =>
      dsimp only at hj
      by_cases hcond : 0 ≤ i ∧ i < (ts.length : Int)
      · rw [if_pos hcond] at hj
        cases hj
        omega
      · rw [if_neg hcond, hnone] at hj
        cases hj
  · -- removeTrack
    intro id hnd hdisj
    by_cases hcur : (currentTrack s).any (fun t => t.id == id) = true
    · exact indexValid_none _ (removeTrack_of_current id s hcur).2
    · have hb : (currentTrack s).any (fun t => t.id == id) = false := by
        simpa using hcur
      have hidx := removeTrack_of_not_current id s hb
      have hq := removeTrack_currentQueue id s
      apply indexValid_intro
      intro j hj
      rw [hidx] at hj
      rw [hq]
      have hjlen : j < s.currentQueue.length := indexValid_elim s hs j hj
      rcases hdisj with hd | hd | hd
      · exact absurd hd hcur
      · have hfe : s.currentQueue.filter (fun t => t.id != id) = s.currentQueue := by
          apply List.filter_eq_self.mpr
          intro x hx
          simp only [bne_iff_ne]
          intro hxe
          exact hd (List.mem_map.mpr ⟨x, hx, hxe⟩)
        rw [hfe]
        exact hjlen
      · have hne : j ≠ s.currentQueue.length - 1 := by
          intro he
          rw [he] at hj
          exact hd hj
        have hfl := length_filter_ne s.currentQueue id hnd
        omega

/-- Witness for C2 (amended) at the sample running state: `prev()` keeps
the index valid, and so does deleting the non-active, non-last-position
track `"b"`. -/
theorem transport_index_invariant_witness :
    indexValid (handlePrev libState) = true ∧
      indexValid (removeTrack "b" libState) = true :=
  ⟨(transport_index_invariant libState (by decide)).2.2.1,
   (transport_index_invariant libState (by decide)).2.2.2.2 "b" (by decide)
     (Or.inr (Or.inr (by decide)))⟩

/-- One `next()` step under `repeat = All`, shuffle off: the index
advances by one modulo the queue length; queue, shuffle and repeat mode
are untouched. -/
theorem handleNext_all_step (s : PlayerState) (i : Nat)
    (hsh : s.shuffle = false) (hrep : s.repeatMode = RepeatMode.All)
    (hidx : s.currentTrackIndex = Option.some i) (hi : i < s.currentQueue.length) :
    (handleNext 0 s).currentTrackIndex =
        Option.some ((i + 1) % s.currentQueue.length) ∧
      (handleNext 0 s).currentQueue = s.currentQueue ∧
      (handleNext 0 s).shuffle = false ∧
      (handleNext 0 s).repeatMode = RepeatMode.All := by
  have h0 : ¬ (s.currentQueue.length = 0) := by omega
  have h1 : ¬ (s.repeatMode = RepeatMode.One) := by simp [hrep]
  have h2 : ¬ (s.shuffle = true) := by simp [hsh]
  by_cases h3 : i + 1 < s.currentQueue.length
  · have hres : handleNext 0 s =
        persistIndex { s with currentTrackIndex := Option.some (i + 1), isPlaying := true } := by
      simp [handleNext, h0, h1, h2, hidx, h3]
    refine ⟨?_, ?_, ?_, ?_⟩
    · rw [hres, persistIndex_currentTrackIndex]
      dsimp only
      rw [Nat.mod_eq_of_lt h3]
    · rw [hres, persistIndex_currentQueue]
    · rw [hres, persistIndex_shuffle]
      exact hsh
    · rw [hres, persistIndex_repeatMode]
      exact hrep
  · have hie : i + 1 = s.currentQueue.length := by omega
    have hres : handleNext 0 s =
        persistIndex { s with currentTrackIndex := Option.some 0, isPlaying := true } := by
      simp [handleNext, h0, h1, h2, hidx, h3, hrep]
    refine ⟨?_, ?_, ?_, ?_⟩
    · rw [hres, persistIndex_currentTrackIndex]
      dsimp only
      rw [hie, Nat.mod_self]
    · rw [hres, persistIndex_currentQueue]
    · rw [hres, persistIndex_shuffle]
      exact hsh
    · rw [hres, persistIndex_repeatMode]
      exact hrep

/-- Iterating `next()` under `repeat = All`, shuffle off, adds the
iteration count to the index modulo the queue length. -/
theorem nextIter_all (k : Nat) :
    ∀ (s : PlayerState) (i : Nat), s.shuffle = false → s.repeatMode = RepeatMode.All →
      s.currentTrackIndex = Option.some i → i < s.currentQueue.length →
      (nextIter k s).currentTrackIndex =
          Option.some ((i + k) % s.currentQueue.length) ∧
        (nextIter k s).currentQueue = s.currentQueue := by
  induction k with
  | zero =>
    intro s i hsh hrep hidx hi
    refine ⟨?_, rfl⟩
    rw [show nextIter 0 s = s from rfl, hidx, Nat.add_zero, Nat.mod_eq_of_lt hi]
  | succ k ih =>
    intro s i hsh hrep hidx hi
    have step := handleNext_all_step s i hsh hrep hidx hi
    have hlen : 0 < s.currentQueue.length := by omega
    have hmod2 : (i + 1) % s.currentQueue.length < (handleNext 0 s).currentQueue.length := by
      rw [step.2.1]
      exact Nat.mod_lt _ hlen
    have ihh := ih (handleNext 0 s) ((i + 1) % s.currentQueue.length)
      step.2.2.1 step.2.2.2 step.1 hmod2
    have hq : (handleNext 0 s).currentQueue = s.currentQueue := step.2.1
    constructor
    · rw [show nextIter (k + 1) s = nextIter k (handleNext 0 s) from rfl, ihh.1, hq]
      congr 1
      rw [Nat.mod_add_mod]
      congr 1
      omega
    · rw [show nextIter (k + 1) s = nextIter k (handleNext 0 s) from rfl, ihh.2, hq]

/-- Claim C4: with `repeat = All` and shuffle off, starting from a valid
index, `queue.length` iterations of `next()` return the index to its
starting value, and no smaller positive number of iterations does. -/
theorem handleNext_repeatAll_period (s : PlayerState) (i : Nat)
    (hsh : s.shuffle = false) (hrep : s.repeatMode = RepeatMode.All)
    (hidx : s.currentTrackIndex = Option.some i) (hi : i < s.currentQueue.length) :
    (nextIter s.currentQueue.length s).currentTrackIndex = Option.some i ∧
      (∀ k, 0 < k → k < s.currentQueue.length →
        (nextIter k s).currentTrackIndex ≠ Option.some i) := by
  constructor
  · rw [(nextIter_all s.currentQueue.length s i hsh hrep hidx hi).1]
    congr 1
    rw [Nat.add_mod_right, Nat.mod_eq_of_lt hi]
  · intro k hk0 hklen
    rw [(nextIter_all k s i hsh hrep hidx hi).1]
    intro hc
    simp only [Option.some.injEq] at hc
    rcases Nat.lt_or_ge (i + k) s.currentQueue.length with hlt | hge
    · rw [Nat.mod_eq_of_lt hlt] at hc
      omega
    · have h2 : i + k - s.currentQueue.length < s.currentQueue.length := by omega
      rw [Nat.mod_eq_sub_mod hge, Nat.mod_eq_of_lt h2] at hc
      omega

/-- Witness for C4 on a three-track queue starting at index 0: three
`next()` calls return to index 0 and one call does not. -/
theorem handleNext_repeatAll_period_witness :
    (nextIter ({ libState with repeatMode := RepeatMode.All } : PlayerState).currentQueue.length
          { libState with repeatMode := RepeatMode.All }).currentTrackIndex = Option.some 0 ∧
      (nextIter 1 { libState with repeatMode := RepeatMode.All }).currentTrackIndex ≠
        Option.some 0 :=
  ⟨(handleNext_repeatAll_period { libState with repeatMode := RepeatMode.All } 0
      (by decide) rfl rfl (by decide)).1,
   (handleNext_repeatAll_period { libState with repeatMode := RepeatMode.All } 0
      (by decide) rfl rfl (by decide)).2 1 (by decide) (by decide)⟩

end VibePlayer
